import Mathlib

/-!
Shallow embedding of grbl's `stepper.c` (stepper motor driver) and proofs of
the specification's claims about it.

The embedding translates the source directly:
- machine integers become `Nat`/`Int`; `uint8` wrap-around is written with
  an explicit `% 256` where a decrement can wrap, and the one `uint32`
  addition that could wrap carries an explicit `% 2^32`;
- the global C state (`st`, the segment ring buffer, the shared indices,
  `sys`, the relevant hardware registers) becomes one record `GState`;
- the interrupt handler `ISR(TIMER2_COMPA_vect)` becomes the pure state
  transformer `isr`, written phase by phase in source order;
- the per-block slicing loop body of `st_prep_buffer` becomes `prepStep`
  (with the placeholder chunk size 250 kept as a parameter, since the spec
  quantifies over chunk-size policies), iterated by `prepRun`;
- external calls are modelled by their visible effect: `plan_discard_current_block`
  pops the modelled planner queue and bumps a call counter,
  `plan_get_current_block` reads the queue head.

Constants that live in the external headers `config.h` / `settings.h` /
`nuts_bolts.h` (pin bit positions, execute-flag bits) are not part of
`src/`; they are fixed to grbl's standard values, and no proof depends on
anything but the step bits and direction bits being distinct.

`mm_per_step` and the floating-point conversions in `st_prep_buffer`
(lines 534-544) are not modelled: no claim refers to them.
-/

namespace Grbl

/-- Ramp state constants from stepper.c lines 32-34. -/
def RAMP_NOOP_CRUISE : Nat := 0

def RAMP_ACCEL : Nat := 1

def RAMP_DECEL : Nat := 2

/-- Load flag constants from stepper.c lines 36-38. -/
def LOAD_NOOP : Nat := 0

def LOAD_LINE : Nat := 1

def LOAD_BLOCK : Nat := 2

/-- Segment flag constants from stepper.c lines 40-43. -/
def ST_NOOP : Nat := 0

def ST_END_OF_BLOCK : Nat := 1

def ST_DECEL : Nat := 2

def ST_DECEL_EOB : Nat := 3

/-- Segment ring capacity, stepper.c line 45. -/
def SEGMENT_BUFFER_SIZE : Nat := 10

/-- Step/direction pin bit positions from the external header config.h
(standard grbl values; only their pairwise distinctness matters below). -/
def X_STEP_BIT : Nat := 2

def Y_STEP_BIT : Nat := 3

def Z_STEP_BIT : Nat := 4

def X_DIRECTION_BIT : Nat := 5

def Y_DIRECTION_BIT : Nat := 6

def Z_DIRECTION_BIT : Nat := 7

def STEP_MASK : Nat := (1 <<< X_STEP_BIT) ||| (1 <<< Y_STEP_BIT) ||| (1 <<< Z_STEP_BIT)

def DIRECTION_MASK : Nat :=
  (1 <<< X_DIRECTION_BIT) ||| (1 <<< Y_DIRECTION_BIT) ||| (1 <<< Z_DIRECTION_BIT)

/-- Execute-flag bits from the external header nuts_bolts.h (standard values). -/
def EXEC_CYCLE_STOP : Nat := 1 <<< 2

def EXEC_ALARM : Nat := 1 <<< 5

/-- Settings-flag bit from the external header settings.h (standard value). -/
def BITFLAG_INVERT_ST_ENABLE : Nat := 1 <<< 2

def STEPPERS_DISABLE_BIT : Nat := 0

/-- Compile-time configuration values from config.h, kept abstract. -/
structure Cfg where
  isr_ticks_per_acceleration_tick : Nat
  minimum_step_rate : Nat

/-- Planner block (the fields of plan_block_t that stepper.c reads). -/
structure PlanBlock where
  direction_bits : Nat
  steps_x : Nat
  steps_y : Nat
  steps_z : Nat
  step_event_count : Nat

instance : Inhabited PlanBlock := ⟨⟨0, 0, 0, 0, 0⟩⟩

/-- st_data_t, stepper.c lines 72-80 (mm_per_step omitted: floating point,
referenced by no claim). -/
structure StData where
  step_events_remaining : Int
  d_next : Nat
  initial_rate : Nat
  nominal_rate : Nat
  rate_delta : Nat
  decelerate_after : Int

instance : Inhabited StData := ⟨⟨0, 0, 0, 0, 0, 0⟩⟩

/-- st_segment_t, stepper.c lines 84-88. -/
structure StSegment where
  n_step : Nat
  st_data_index : Nat
  flag : Nat

instance : Inhabited StSegment := ⟨⟨0, 0, 0⟩⟩

/-- stepper_t, stepper.c lines 48-68. -/
structure Stepper where
  counter_x : Int
  counter_y : Int
  counter_z : Int
  segment_steps_remaining : Nat
  counter_d : Int
  delta_d : Nat
  d_per_tick : Nat
  execute_step : Bool
  step_pulse_time : Nat
  out_bits : Nat
  load_flag : Nat
  ramp_count : Nat
  ramp_type : Nat

/-- The all-zero stepper_t produced by `memset(&st, 0, sizeof(st))`. -/
def Stepper.zero : Stepper := ⟨0, 0, 0, 0, 0, 0, 0, false, 0, 0, 0, 0, 0⟩

/-- The module's global state: the statics of stepper.c, the parts of `sys`,
`settings` and the planner it touches, and the hardware registers it writes.
Pointer statics (`st_current_segment`, `st_current_data`, `pl_current_block`)
are modelled as copies of the records they point to, which are not mutated
between being cached and being read. `planner_discards` counts calls to
`plan_discard_current_block`. -/
structure GState where
  st : Stepper
  segment_buffer : Nat → StSegment
  segment_data : Nat → StData
  segment_buffer_tail : Nat
  segment_buffer_head : Nat
  segment_next_head : Nat
  busy : Bool
  pl_current_block : Option PlanBlock
  st_current_segment : StSegment
  st_current_data : StData
  pl_prep_block : Option PlanBlock
  pl_prep_index : Nat
  st_data_prep_index : Nat
  planner : List PlanBlock
  planner_discards : Nat
  pos_x : Int
  pos_y : Int
  pos_z : Int
  sys_execute : Nat
  invert_mask : Nat
  settings_stepper_idle_lock_time : Nat
  settings_flags : Nat
  stepping_port : Nat
  steppers_disable_port : Nat
  timer0_running : Bool
  timer2_interrupt : Bool
  timer2_running : Bool

/-- next_block_index, stepper.c lines 108-113. -/
def next_block_index (block_index : Nat) : Nat :=
  let block_index := block_index + 1
  if block_index = SEGMENT_BUFFER_SIZE then 0 else block_index

/-- st_go_idle, stepper.c lines 168-186: disable the tick timer, clear the
busy guard, and (when the idle lock applies or an alarm is active) write the
stepper-disable output per the configured polarity. `delay_ms` is a pure
time delay with no modelled state. -/
def st_go_idle (s : GState) : GState :=
  let s := { s with timer2_interrupt := false, timer2_running := false, busy := false }
  if s.settings_stepper_idle_lock_time ≠ 255 ∨ s.sys_execute &&& EXEC_ALARM ≠ 0 then
    if s.settings_flags &&& BITFLAG_INVERT_ST_ENABLE ≠ 0 then
      { s with steppers_disable_port :=
          s.steppers_disable_port &&& (255 ^^^ (1 <<< STEPPERS_DISABLE_BIT)) }
    else
      { s with steppers_disable_port :=
          s.steppers_disable_port ||| (1 <<< STEPPERS_DISABLE_BIT) }
  else s

/-- ISR lines 212-217: if a step/direction output was latched on the previous
tick, write it to the stepping port now and arm the pulse timer. -/
def pulsePhase (s : GState) : GState :=
  if s.st.execute_step then
    { s with
      st := { s.st with execute_step := false },
      stepping_port :=
        (s.stepping_port &&& (255 ^^^ (DIRECTION_MASK ||| STEP_MASK))) ||| s.st.out_bits,
      timer0_running := true }
  else s

/-- ISR lines 237-283: pop the segment at the tail, reinitialize per-block
state on LOAD_BLOCK, and switch the ramp to deceleration when the segment
is flagged ST_DECEL or ST_DECEL_EOB. -/
def loadSegment (cfg : Cfg) (s : GState) : GState :=
  let seg := s.segment_buffer s.segment_buffer_tail
  let s := { s with
    st_current_segment := seg,
    st := { s.st with segment_steps_remaining := seg.n_step } }
  let s :=
    if s.st.load_flag = LOAD_BLOCK then
      let blk := s.planner.head?
      let data := s.segment_data seg.st_data_index
      let b := blk.getD default
      { s with
        pl_current_block := blk,
        st_current_data := data,
        st := { s.st with
          out_bits := b.direction_bits ^^^ s.invert_mask,
          execute_step := true,
          counter_x := ((b.step_event_count >>> 1 : Nat) : Int),
          counter_y := ((b.step_event_count >>> 1 : Nat) : Int),
          counter_z := ((b.step_event_count >>> 1 : Nat) : Int),
          counter_d := (data.d_next : Int),
          delta_d := data.initial_rate,
          ramp_type := RAMP_ACCEL,
          ramp_count := cfg.isr_ticks_per_acceleration_tick / 2,
          d_per_tick :=
            if data.initial_rate < cfg.minimum_step_rate then cfg.minimum_step_rate
            else data.initial_rate } }
    else s
  let s :=
    if seg.flag = ST_DECEL ∨ seg.flag = ST_DECEL_EOB then
      { s with st := { s.st with
          ramp_count :=
            if s.st.ramp_type = RAMP_NOOP_CRUISE then cfg.isr_ticks_per_acceleration_tick / 2
            else cfg.isr_ticks_per_acceleration_tick - s.st.ramp_count,
          ramp_type := RAMP_DECEL } }
    else s
  { s with st := { s.st with load_flag := LOAD_NOOP } }

/-- ISR lines 295-321: tick the acceleration-ramp counter and, when it
reaches zero, reload it and adjust `delta_d` (add `rate_delta` clamped to
`nominal_rate` while accelerating; subtract `rate_delta` or halve while
decelerating), then floor `d_per_tick` at the configured minimum rate.
`ramp_count` is a uint8, so its decrement is taken mod 256; the one
acceleration add is a uint32 add, taken mod 2^32. -/
def rampPhase (cfg : Cfg) (s : GState) : GState :=
  if s.st.ramp_type ≠ 0 then
    let rc := (s.st.ramp_count + 255) % 256
    if rc = 0 then
      let st1 := { s.st with ramp_count := cfg.isr_ticks_per_acceleration_tick }
      let st2 :=
        if st1.ramp_type = RAMP_ACCEL then
          let dd := (st1.delta_d + s.st_current_data.rate_delta) % 4294967296
          if dd ≥ s.st_current_data.nominal_rate then
            { st1 with delta_d := s.st_current_data.nominal_rate,
                       ramp_type := RAMP_NOOP_CRUISE }
          else { st1 with delta_d := dd }
        else
          if st1.delta_d > s.st_current_data.rate_delta then
            { st1 with delta_d := st1.delta_d - s.st_current_data.rate_delta }
          else
            { st1 with delta_d := st1.delta_d >>> 1 }
      let st3 :=
        if st2.delta_d < cfg.minimum_step_rate then { st2 with d_per_tick := cfg.minimum_step_rate }
        else { st2 with d_per_tick := st2.delta_d }
      { s with st := st3 }
    else { s with st := { s.st with ramp_count := rc } }
  else s

/-- One axis of the Bresenham step event, ISR lines 334-340 (and the
analogous y/z groups): subtract the axis step count from the axis error
counter; on underflow emit the step bit, reload the counter by the block's
total step-event count, and move the signed position by one according to
the direction bit. The extra `Nat` result counts emitted step pulses
(instrumentation for the claims; the C code has no such counter). -/
def bresAxis (stepBit dirBit steps count : Nat) (c : Int) (ob : Nat) (pos : Int)
    (pul : Nat) : Int × Nat × Int × Nat :=
  let c := c - (steps : Int)
  if c < 0 then
    let ob := ob ||| (1 <<< stepBit)
    let pos := if ob &&& (1 <<< dirBit) ≠ 0 then pos - 1 else pos + 1
    (c + (count : Int), ob, pos, pul + 1)
  else (c, ob, pos, pul)

/-- The Bresenham core touched by a step event: the three error counters,
the output bit mask being built, the three signed positions, and the three
pulse instrumentation counters. -/
structure BresCore where
  counter_x : Int
  counter_y : Int
  counter_z : Int
  out_bits : Nat
  pos_x : Int
  pos_y : Int
  pos_z : Int
  pulses_x : Nat
  pulses_y : Nat
  pulses_z : Nat

/-- ISR lines 333-354: the three axes processed in fixed x, y, z order. -/
def bresStep (b : PlanBlock) (q : BresCore) : BresCore :=
  let rx := bresAxis X_STEP_BIT X_DIRECTION_BIT b.steps_x b.step_event_count
    q.counter_x q.out_bits q.pos_x q.pulses_x
  let ry := bresAxis Y_STEP_BIT Y_DIRECTION_BIT b.steps_y b.step_event_count
    q.counter_y rx.2.1 q.pos_y q.pulses_y
  let rz := bresAxis Z_STEP_BIT Z_DIRECTION_BIT b.steps_z b.step_event_count
    q.counter_z ry.2.1 q.pos_z q.pulses_z
  ⟨rx.1, ry.1, rz.1, rz.2.1, rx.2.2.1, ry.2.2.1, rz.2.2.1, rx.2.2.2, ry.2.2.2, rz.2.2.2⟩

/-- One full step event as the ISR fires it: the output mask is first reset
to the block's direction bits (ISR line 330), then the Bresenham tracer
runs. -/
def bresEvent (b : PlanBlock) (q : BresCore) : BresCore :=
  bresStep b { q with out_bits := b.direction_bits }

/-- ISR lines 323-379: subtract the per-tick rate from the inverse-time
counter; when it goes negative, fire a step event (reload the counter by
`d_next`, rebuild the output mask from the direction bits, run the
Bresenham tracer, update positions), then decrement the segment's steps
remaining (a uint8) and, at zero, pick the next load flag — discarding the
planner block exactly when the segment is flagged ST_END_OF_BLOCK or
ST_DECEL_EOB — and advance the ring tail. Finally apply the invert mask. -/
def integratePhase (s : GState) : GState :=
  let s := { s with st := { s.st with counter_d := s.st.counter_d - (s.st.d_per_tick : Int) } }
  if s.st.counter_d < 0 then
    let b := s.pl_current_block.getD default
    let s := { s with st := { s.st with
      counter_d := s.st.counter_d + (s.st_current_data.d_next : Int),
      out_bits := b.direction_bits,
      execute_step := true } }
    let q := bresStep b
      ⟨s.st.counter_x, s.st.counter_y, s.st.counter_z, s.st.out_bits,
       s.pos_x, s.pos_y, s.pos_z, 0, 0, 0⟩
    let s := { s with
      st := { s.st with counter_x := q.counter_x, counter_y := q.counter_y,
                        counter_z := q.counter_z, out_bits := q.out_bits },
      pos_x := q.pos_x, pos_y := q.pos_y, pos_z := q.pos_z }
    let rem := (s.st.segment_steps_remaining + 255) % 256
    let s := { s with st := { s.st with segment_steps_remaining := rem } }
    let s :=
      if rem = 0 then
        let s :=
          if s.st_current_segment.flag = ST_END_OF_BLOCK ∨
             s.st_current_segment.flag = ST_DECEL_EOB then
            { s with planner := s.planner.tail,
                     planner_discards := s.planner_discards + 1,
                     st := { s.st with load_flag := LOAD_BLOCK } }
          else { s with st := { s.st with load_flag := LOAD_LINE } }
        { s with segment_buffer_tail := next_block_index s.segment_buffer_tail }
      else s
    { s with st := { s.st with out_bits := s.st.out_bits ^^^ s.invert_mask } }
  else s

/-- The tail of the tick handler shared by every non-returning path: ramp
adjustment, inverse-time integration, and releasing the busy guard
(ISR lines 295-380). -/
def finishTick (cfg : Cfg) (s : GState) : GState :=
  let s := rampPhase cfg s
  let s := integratePhase s
  { s with busy := false }

/-- ISR(TIMER2_COMPA_vect), stepper.c lines 205-382, as a pure transformer
on the module state. The `sei()` call only re-enables the pulse-reset
interrupt, whose state is disjoint; it has no effect in this model. -/
def isr (cfg : Cfg) (s : GState) : GState :=
  if s.busy then s
  else
    let s := pulsePhase s
    let s := { s with busy := true }
    if s.st.load_flag ≠ LOAD_NOOP then
      if s.segment_buffer_head ≠ s.segment_buffer_tail then
        finishTick cfg (loadSegment cfg s)
      else
        let s := st_go_idle s
        { s with sys_execute := s.sys_execute ||| EXEC_CYCLE_STOP }
    else finishTick cfg s

/-- st_reset, stepper.c lines 396-407. Note that the source resets
`segment_buffer_tail` and `segment_next_head` but leaves
`segment_buffer_head` untouched. -/
def st_reset (s : GState) : GState :=
  { s with
    st := { Stepper.zero with load_flag := LOAD_BLOCK },
    pl_current_block := none,
    pl_prep_block := none,
    pl_prep_index := 0,
    st_data_prep_index := 0,
    busy := false,
    segment_buffer_tail := 0,
    segment_next_head := 1 }

/-- The per-block slicing state of st_prep_buffer: the two BlockData
counters that the loop body decrements (stepper.c lines 527, 547, 609, 628). -/
structure PrepState where
  step_events_remaining : Int
  decelerate_after : Int
deriving DecidableEq

instance : Inhabited PrepState := ⟨⟨0, 0⟩⟩

/-- A segment as produced by one slicing iteration: its step count and flag. -/
structure PrepSeg where
  n_step : Int
  flag : Nat
deriving DecidableEq

instance : Inhabited PrepSeg := ⟨⟨0, 0⟩⟩

/-- One iteration of the st_prep_buffer slicing loop restricted to an
already staged block (stepper.c lines 570-628): the chunk size (the
source's placeholder 250, kept as a parameter because the spec quantifies
over chunk-size policies) is clamped to the steps remaining in the block
and, while `decelerate_after` is positive, to `decelerate_after`; then
`step_events_remaining` is decremented, the segment flag is assigned, and
`decelerate_after` is decremented (in that source order: line 628 runs
after the flag assignment of lines 610-627). -/
def prepStep (chunk : Nat) (p : PrepState) : PrepSeg × PrepState :=
  let n0 : Int := (chunk : Int)
  let n1 : Int := if n0 > p.step_events_remaining then p.step_events_remaining else n0
  let n : Int :=
    if p.decelerate_after > 0 ∧ n1 > p.decelerate_after then p.decelerate_after else n1
  let rem : Int := p.step_events_remaining - n
  let flag : Nat :=
    if rem = 0 then
      if p.decelerate_after = 0 then ST_DECEL_EOB else ST_END_OF_BLOCK
    else
      if p.decelerate_after = 0 then ST_DECEL else ST_NOOP
  (⟨n, flag⟩, ⟨rem, p.decelerate_after - n⟩)

/-- The slicing loop run to block completion: slices are produced while
steps remain (when `step_events_remaining` reaches zero st_prep_buffer
clears `pl_prep_block` and moves to the next planner block, ending this
block's slicing). `policy` gives the pre-clamp chunk size of each slice;
the source instantiates it with the constant 250. `fuel` bounds the
recursion and is irrelevant once it is at least `step_events_remaining`. -/
def prepRun (policy : Nat → Nat) (i : Nat) (fuel : Nat) (p : PrepState) :
    List (PrepSeg × PrepState) :=
  match fuel with
  | 0 => []
  | fuel + 1 =>
    if p.step_events_remaining ≤ 0 then []
    else
      let r := prepStep (policy i) p
      r :: prepRun policy (i + 1) fuel r.2

/-- The per-slice states of a slicing run, with the initial state in front. -/
def prepStates (policy : Nat → Nat) (i : Nat) (fuel : Nat) (p : PrepState) : List PrepState :=
  p :: (prepRun policy i fuel p).map (fun r => r.2)

/-- Is a segment flag one of the end-of-block flags that make the ISR
discard the planner block (ISR line 362)? -/
def segFlagEOB (f : Nat) : Bool := (f == ST_END_OF_BLOCK) || (f == ST_DECEL_EOB)

/-- Head/next-head/tail of the segment ring buffer. -/
structure RingState where
  head : Nat
  next_head : Nat
  tail : Nat
deriving DecidableEq

/-- The index transition system of the segment ring buffer. From the empty
initial configuration, the producer (st_prep_buffer lines 515, 631-632)
publishes a segment only while `tail ≠ next_head`, moving `head` to
`next_head` and advancing `next_head`; the consumer (ISR lines 227, 370)
advances `tail` only after loading a segment, which requires
`head ≠ tail`. -/
inductive RingReach : RingState → Prop
  | start : RingReach ⟨0, 1, 0⟩
  | produce {r : RingState} : RingReach r → r.tail ≠ r.next_head →
      RingReach ⟨r.next_head, next_block_index r.next_head, r.tail⟩
  | consume {r : RingState} : RingReach r → r.head ≠ r.tail →
      RingReach ⟨r.head, r.next_head, next_block_index r.tail⟩

/-- Number of occupied slots of the ring at a given index pair. -/
def ringOccupied (r : RingState) : Nat :=
  (r.head + SEGMENT_BUFFER_SIZE - r.tail) % SEGMENT_BUFFER_SIZE

/-- The state of the inverse-time integrator driving the Bresenham tracer:
the time-distance counter (`st.counter_d`), the Bresenham core, and an
instrumentation count of fired step events. -/
structure InvTimeState where
  counter_d : Int
  core : BresCore
  events : Nat

/-- One ISR tick of the step-triggering core (ISR lines 323-354) with the
per-tick rate supplied externally: `rate` is whatever `st.d_per_tick` holds
on that tick, so a run over an arbitrary rate list covers every possible
sequence of ramp-rate adjustments. -/
def invTimeTick (b : PlanBlock) (dnext : Nat) (rate : Nat) (t : InvTimeState) : InvTimeState :=
  let cd := t.counter_d - (rate : Int)
  if cd < 0 then
    { counter_d := cd + (dnext : Int), core := bresEvent b t.core, events := t.events + 1 }
  else { t with counter_d := cd }

/-- A run of ISR ticks over a list of per-tick rates. -/
def invTimeRun (b : PlanBlock) (dnext : Nat) (rates : List Nat) (t : InvTimeState) :
    InvTimeState :=
  rates.foldl (fun t r => invTimeTick b dnext r t) t

/-- The single-axis projection of the Bresenham core. -/
structure AxisState where
  c : Int
  pos : Int
  pul : Nat
deriving DecidableEq

/-- The pure single-axis step event: what one axis group of ISR lines
334-340 does to that axis's error counter, position and pulse count, once
the direction test has been resolved to the constant `neg`. -/
def axisEvent (steps count : Nat) (neg : Bool) (a : AxisState) : AxisState :=
  let c := a.c - (steps : Int)
  if c < 0 then
    ⟨c + (count : Int), if neg then a.pos - 1 else a.pos + 1, a.pul + 1⟩
  else ⟨c, a.pos, a.pul⟩

/-- X-axis projection of the Bresenham core. -/
def projX (q : BresCore) : AxisState := ⟨q.counter_x, q.pos_x, q.pulses_x⟩

/-- Y-axis projection of the Bresenham core. -/
def projY (q : BresCore) : AxisState := ⟨q.counter_y, q.pos_y, q.pulses_y⟩

/-- Z-axis projection of the Bresenham core. -/
def projZ (q : BresCore) : AxisState := ⟨q.counter_z, q.pos_z, q.pulses_z⟩

/-- The state the tick handler is in when it reaches the inverse-time
integration, assuming it did not take the empty-buffer return: the pulse
phase, the busy-guard set, and the load phase if a load was pending. -/
def preStepState (cfg : Cfg) (s : GState) : GState :=
  let s := pulsePhase s
  let s := { s with busy := true }
  rampPhase cfg (if s.st.load_flag ≠ LOAD_NOOP then loadSegment cfg s else s)

/-- Does this tick of the handler call `plan_discard_current_block`? It
does exactly when the handler is not rejected by the busy guard, does not
take the empty-buffer return, fires a step event, that event exhausts the
active segment, and the segment is flagged ST_END_OF_BLOCK or
ST_DECEL_EOB. -/
def discardTrigger (cfg : Cfg) (s : GState) : Bool :=
  !s.busy &&
  !(decide (s.st.load_flag ≠ LOAD_NOOP) && (s.segment_buffer_head == s.segment_buffer_tail)) &&
  (let s2 := preStepState cfg s
   decide (s2.st.counter_d - (s2.st.d_per_tick : Int) < 0) &&
   ((s2.st.segment_steps_remaining + 255) % 256 == 0) &&
   segFlagEOB s2.st_current_segment.flag)

/-- A concrete configuration for witnesses: 250 ISR ticks per acceleration
tick, minimum step rate 1. -/
def exCfg : Cfg := ⟨250, 1⟩

/-- A concrete baseline module state used by witnesses and counterexamples. -/
def ex0 : GState where
  st := Stepper.zero
  segment_buffer := fun _ => default
  segment_data := fun _ => default
  segment_buffer_tail := 0
  segment_buffer_head := 0
  segment_next_head := 1
  busy := false
  pl_current_block := none
  st_current_segment := default
  st_current_data := default
  pl_prep_block := none
  pl_prep_index := 0
  st_data_prep_index := 0
  planner := []
  planner_discards := 0
  pos_x := 0
  pos_y := 0
  pos_z := 0
  sys_execute := 0
  invert_mask := 0
  settings_stepper_idle_lock_time := 255
  settings_flags := 0
  stepping_port := 0
  steppers_disable_port := 0
  timer0_running := false
  timer2_interrupt := true
  timer2_running := true

/-- A state with the busy guard set. -/
def exBusy : GState := { ex0 with busy := true }

/-- A state in which five segments had been published and three consumed
before st_reset is called: head is 5, tail is 3. -/
def exBeforeReset : GState :=
  { ex0 with segment_buffer_head := 5, segment_buffer_tail := 3, segment_next_head := 6 }

/-- BlockData for a deceleration witness: nominal rate 100, rate delta 3. -/
def exDecelData : StData := ⟨0, 0, 0, 100, 3, 0⟩

/-- A state about to take a deceleration ramp adjustment at rate 10. -/
def exDecelState : GState :=
  { ex0 with
    st := { Stepper.zero with ramp_type := RAMP_DECEL, ramp_count := 1, delta_d := 10 },
    st_current_data := exDecelData }

/-- BlockData for an acceleration witness: nominal rate 100, rate delta 95. -/
def exAccelData : StData := ⟨0, 0, 0, 100, 95, 0⟩

/-- A state about to take an acceleration ramp adjustment at rate 10, with
`rate_delta` exceeding `nominal_rate - delta_d`. -/
def exAccelState : GState :=
  { ex0 with
    st := { Stepper.zero with ramp_type := RAMP_ACCEL, ramp_count := 1, delta_d := 10 },
    st_current_data := exAccelData }

/-- A state waiting to load a block while the segment buffer is empty. -/
def exEmptyStall : GState :=
  { ex0 with st := { Stepper.zero with load_flag := LOAD_BLOCK } }

/-- A state one step away from completing an ST_END_OF_BLOCK segment. -/
def exDiscard : GState :=
  { ex0 with
    st := { Stepper.zero with
            load_flag := LOAD_NOOP
            d_per_tick := 5
            segment_steps_remaining := 1 },
    st_current_segment := ⟨1, 0, ST_END_OF_BLOCK⟩,
    pl_current_block := some ⟨0, 1, 0, 0, 2⟩,
    planner := [⟨0, 1, 0, 0, 2⟩] }

/-- The Bresenham core as LOAD_BLOCK initializes it for a fresh planner
block (ISR lines 252-254): every axis error counter starts at half the
block's total step-event count, and the pulse instrumentation counts start
at zero. -/
def blockInitCore (b : PlanBlock) (ob0 : Nat) (px py pz : Int) : BresCore :=
  ⟨((b.step_event_count >>> 1 : Nat) : Int), ((b.step_event_count >>> 1 : Nat) : Int),
   ((b.step_event_count >>> 1 : Nat) : Int), ob0, px, py, pz, 0, 0, 0⟩

/-- A whole-block run of the step-triggering core: ISR ticks over an
arbitrary list of per-tick rates, starting from the per-block
initialization. -/
def blockRun (b : PlanBlock) (dnext : Nat) (rates : List Nat) (cd0 : Int) (ob0 : Nat)
    (px py pz : Int) : InvTimeState :=
  invTimeRun b dnext rates ⟨cd0, blockInitCore b ob0 px py pz, 0⟩

/-- A concrete two-step block moving x negatively by one step and y
positively by two steps. -/
def exBlock : PlanBlock := ⟨32, 1, 2, 0, 2⟩

/-- C10: if the re-entrancy guard `busy` is already set when the tick
interrupt fires, the handler returns immediately as a complete no-op: no
port write, no pulse-timer arming, and every field of the module state —
including the latched `execute_step` — is left unchanged. -/
theorem isr_busy_complete_noop (cfg : Cfg) (s : GState) (h : s.busy = true) :
    isr cfg s = s := by
  simp [isr, h]

/-- Witness for `isr_busy_complete_noop` at a concrete busy state. -/
theorem isr_busy_complete_noop_witness : isr exCfg exBusy = exBusy :=
  isr_busy_complete_noop exCfg exBusy rfl

/-- C4 (code bug): st_reset resets `segment_buffer_tail` to 0 and
`segment_next_head` to 1 but leaves `segment_buffer_head` untouched, so
from a prior state with head 5 and tail 3 the reset state has head 5 and
tail 0: the ISR's non-empty test `segment_buffer_head != segment_buffer_tail`
is true, not false, contradicting the claim that the buffer indicates empty
for every prior state. The remaining clauses of the claim (state zeroed,
staged pointers and indices cleared, `load_flag = LOAD_BLOCK`) do hold. -/
theorem st_reset_keeps_stale_head :
    (st_reset exBeforeReset).segment_buffer_head ≠ (st_reset exBeforeReset).segment_buffer_tail ∧
    (st_reset exBeforeReset).segment_buffer_head = 5 ∧
    (st_reset exBeforeReset).segment_buffer_tail = 0 ∧
    (st_reset exBeforeReset).segment_next_head = 1 ∧
    (st_reset exBeforeReset).st.load_flag = LOAD_BLOCK ∧
    (st_reset exBeforeReset).busy = false ∧
    (st_reset exBeforeReset).pl_current_block = none ∧
    (st_reset exBeforeReset).pl_prep_block = none ∧
    (st_reset exBeforeReset).pl_prep_index = 0 ∧
    (st_reset exBeforeReset).st_data_prep_index = 0 := by
  refine ⟨by decide, rfl, rfl, rfl, rfl, rfl, rfl, rfl, rfl, rfl⟩

/-- C7 counterexample: the claim says the handler subtracts `rate_delta`
when `rate_delta` exceeds the current rate and halves otherwise. At current
rate 10 with `rate_delta` 3, `rate_delta` does not exceed the rate, so the
claim prescribes halving to 5; the code (ISR lines 306-311) subtracts,
yielding 7. -/
theorem rampDecel_claim_counterexample :
    (rampPhase exCfg exDecelState).st.delta_d = 10 - 3 ∧
    (rampPhase exCfg exDecelState).st.delta_d ≠ 10 >>> 1 := by
  decide

/-- C7 as amended: while the ramp phase is Decel, a ramp-tick adjustment
subtracts `rate_delta` when the current rate exceeds `rate_delta` and
otherwise halves the current rate; the rate is non-increasing, and in the
subtracting branch the subtraction is exact (never past zero) and leaves a
positive rate. -/
theorem rampDecel_adjust (cfg : Cfg) (s : GState)
    (hD : s.st.ramp_type = RAMP_DECEL) (hC : s.st.ramp_count = 1) :
    (rampPhase cfg s).st.delta_d =
      (if s.st_current_data.rate_delta < s.st.delta_d
       then s.st.delta_d - s.st_current_data.rate_delta
       else s.st.delta_d >>> 1) ∧
    (rampPhase cfg s).st.delta_d ≤ s.st.delta_d ∧
    (s.st_current_data.rate_delta < s.st.delta_d →
      ((rampPhase cfg s).st.delta_d : Int) =
        (s.st.delta_d : Int) - (s.st_current_data.rate_delta : Int) ∧
      0 < (rampPhase cfg s).st.delta_d) := by
  simp only [rampPhase, hD, hC, RAMP_DECEL, RAMP_ACCEL]
  norm_num
  split_ifs with h h2 <;>
    simp only [Nat.shiftRight_eq_div_pow, pow_one] <;> simp <;> omega

/-- Witness for `rampDecel_adjust` at the concrete deceleration state. -/
theorem rampDecel_adjust_witness :
    (rampPhase exCfg exDecelState).st.delta_d =
      (if exDecelState.st_current_data.rate_delta < exDecelState.st.delta_d
       then exDecelState.st.delta_d - exDecelState.st_current_data.rate_delta
       else exDecelState.st.delta_d >>> 1) ∧
    (rampPhase exCfg exDecelState).st.delta_d ≤ exDecelState.st.delta_d ∧
    (exDecelState.st_current_data.rate_delta < exDecelState.st.delta_d →
      ((rampPhase exCfg exDecelState).st.delta_d : Int) =
        (exDecelState.st.delta_d : Int) - (exDecelState.st_current_data.rate_delta : Int) ∧
      0 < (rampPhase exCfg exDecelState).st.delta_d) :=
  rampDecel_adjust exCfg exDecelState rfl rfl

/-- C6: while the ramp phase is Accel, a ramp-tick adjustment adds
`rate_delta` and clamps the result to `nominal_rate`, switching the phase
to Cruise exactly on reaching it; provided the current rate is at most
`nominal_rate` (the acceleration-phase invariant) and the uint32 add does
not wrap, the rate is non-decreasing and never exceeds `nominal_rate`, and
whenever `rate_delta` exceeds `nominal_rate - delta_d` (in particular for
the first adjustment of a block with `rate_delta > nominal_rate -
initial_rate`) the adjusted rate is exactly `nominal_rate`, with no
overshoot. -/
theorem rampAccel_adjust (cfg : Cfg) (s : GState)
    (hA : s.st.ramp_type = RAMP_ACCEL) (hC : s.st.ramp_count = 1)
    (hLe : s.st.delta_d ≤ s.st_current_data.nominal_rate)
    (hOv : s.st.delta_d + s.st_current_data.rate_delta < 4294967296) :
    (rampPhase cfg s).st.delta_d =
      min (s.st.delta_d + s.st_current_data.rate_delta) s.st_current_data.nominal_rate ∧
    s.st.delta_d ≤ (rampPhase cfg s).st.delta_d ∧
    (rampPhase cfg s).st.delta_d ≤ s.st_current_data.nominal_rate ∧
    (rampPhase cfg s).st.ramp_type =
      (if s.st_current_data.nominal_rate ≤ s.st.delta_d + s.st_current_data.rate_delta
       then RAMP_NOOP_CRUISE else RAMP_ACCEL) ∧
    (s.st_current_data.nominal_rate - s.st.delta_d < s.st_current_data.rate_delta →
      (rampPhase cfg s).st.delta_d = s.st_current_data.nominal_rate) := by
  simp only [rampPhase, hA, hC, RAMP_ACCEL]
  norm_num [Nat.mod_eq_of_lt hOv]
  split_ifs with h h2 h3 <;>
    simp only [RAMP_NOOP_CRUISE, RAMP_ACCEL] <;> simp <;> omega

/-- Witness for `rampAccel_adjust`: at rate 10 with nominal rate 100 and
rate delta 95, the first adjustment clamps to exactly 100. -/
theorem rampAccel_adjust_witness :
    (rampPhase exCfg exAccelState).st.delta_d =
      min (exAccelState.st.delta_d + exAccelState.st_current_data.rate_delta)
        exAccelState.st_current_data.nominal_rate ∧
    exAccelState.st.delta_d ≤ (rampPhase exCfg exAccelState).st.delta_d ∧
    (rampPhase exCfg exAccelState).st.delta_d ≤ exAccelState.st_current_data.nominal_rate ∧
    (rampPhase exCfg exAccelState).st.ramp_type =
      (if exAccelState.st_current_data.nominal_rate ≤
          exAccelState.st.delta_d + exAccelState.st_current_data.rate_delta
       then RAMP_NOOP_CRUISE else RAMP_ACCEL) ∧
    (exAccelState.st_current_data.nominal_rate - exAccelState.st.delta_d <
        exAccelState.st_current_data.rate_delta →
      (rampPhase exCfg exAccelState).st.delta_d = exAccelState.st_current_data.nominal_rate) :=
  rampAccel_adjust exCfg exAccelState rfl rfl (by decide) (by decide)

/-- C3 counterexample: slicing a staged block with 250 steps remaining and
`decelerate_after` 250 consumes the whole block in one slice, after which
both counters are zero — both "hit zero in this same slice" — yet the flag
assigned is ST_END_OF_BLOCK, not ST_DECEL_EOB, because the code tests
`decelerate_after` before decrementing it (stepper.c line 612 versus
line 628). -/
theorem prepStep_flag_claim_counterexample :
    (prepStep 250 ⟨250, 250⟩).2.step_events_remaining = 0 ∧
    (prepStep 250 ⟨250, 250⟩).2.decelerate_after = 0 ∧
    (prepStep 250 ⟨250, 250⟩).1.flag = ST_END_OF_BLOCK ∧
    ST_END_OF_BLOCK ≠ ST_DECEL_EOB := by
  decide

/-- C3 as amended: the segment flag is assigned after the
`step_events_remaining` decrement but before the `decelerate_after`
decrement, so it is determined by the decremented `step_events_remaining`
together with the value `decelerate_after` had on entry to the slice (that
is, whether it had already reached zero in an earlier slice):
DecelAndEndOfBlock when the remaining events hit zero and decelerate_after
was already zero; EndOfBlock when the remaining events hit zero and
decelerate_after was nonzero on entry (even if it reaches zero in this same
slice); Decel when events remain and decelerate_after was already zero;
Continue otherwise. -/
theorem prepStep_flag_cases (chunk : Nat) (p : PrepState) :
    ((prepStep chunk p).1.flag = ST_DECEL_EOB ↔
      (prepStep chunk p).2.step_events_remaining = 0 ∧ p.decelerate_after = 0) ∧
    ((prepStep chunk p).1.flag = ST_END_OF_BLOCK ↔
      (prepStep chunk p).2.step_events_remaining = 0 ∧ p.decelerate_after ≠ 0) ∧
    ((prepStep chunk p).1.flag = ST_DECEL ↔
      (prepStep chunk p).2.step_events_remaining ≠ 0 ∧ p.decelerate_after = 0) ∧
    ((prepStep chunk p).1.flag = ST_NOOP ↔
      (prepStep chunk p).2.step_events_remaining ≠ 0 ∧ p.decelerate_after ≠ 0) := by
  simp only [prepStep, ST_DECEL_EOB, ST_END_OF_BLOCK, ST_DECEL, ST_NOOP]
  split_ifs <;> simp_all

/-- The ring-advance function stays below the buffer capacity. -/
theorem next_block_index_lt {n : Nat} (h : n < SEGMENT_BUFFER_SIZE) :
    next_block_index n < SEGMENT_BUFFER_SIZE := by
  simp only [next_block_index, SEGMENT_BUFFER_SIZE] at *
  split_ifs <;> omega

/-- Inductive invariant of the ring index system: both indices stay below
the capacity and `next_head` is always the successor of `head`. -/
theorem ringReach_inv {r : RingState} (h : RingReach r) :
    r.head < SEGMENT_BUFFER_SIZE ∧ r.tail < SEGMENT_BUFFER_SIZE ∧
    r.next_head = next_block_index r.head := by
  induction h with
  | start => exact ⟨by decide, by decide, by decide⟩
  | produce h hne ih =>
    exact ⟨by rw [show RingState.head ⟨_, _, _⟩ = _ from rfl, ih.2.2]; exact next_block_index_lt ih.1,
      ih.2.1, rfl⟩
  | consume h hne ih => exact ⟨ih.1, next_block_index_lt ih.2.1, ih.2.2⟩

/-- C5: in every state reachable by interleaving the producer
(st_prep_buffer) and the consumer (the tick interrupt), the segment ring
holds at most capacity − 1 = 9 occupied slots, the head and tail indices
never satisfy the full condition (`next head = tail`) and the empty
condition (`head = tail`) simultaneously, and the producer's stopping
condition (`tail = next_head`, i.e. full) occurs exactly at occupancy 9 —
one slot is always kept empty to disambiguate full from empty. -/
theorem ring_capacity_invariant (r : RingState) (h : RingReach r) :
    ringOccupied r ≤ SEGMENT_BUFFER_SIZE - 1 ∧
    ¬(r.head = r.tail ∧ next_block_index r.head = r.tail) ∧
    (r.tail = r.next_head ↔ ringOccupied r = SEGMENT_BUFFER_SIZE - 1) := by
  obtain ⟨h1, h2, h3⟩ := ringReach_inv h
  rw [h3]
  simp only [ringOccupied, next_block_index, SEGMENT_BUFFER_SIZE] at *
  split_ifs <;> constructor <;> omega

/-- Witness for `ring_capacity_invariant` at the initial empty ring. -/
theorem ring_capacity_invariant_witness :
    ringOccupied ⟨0, 1, 0⟩ ≤ SEGMENT_BUFFER_SIZE - 1 ∧
    ¬((0 : Nat) = 0 ∧ next_block_index 0 = 0) ∧
    ((0 : Nat) = 1 ↔ ringOccupied ⟨0, 1, 0⟩ = SEGMENT_BUFFER_SIZE - 1) :=
  ring_capacity_invariant ⟨0, 1, 0⟩ RingReach.start

/-- Bounds of one slicing iteration: the emitted step count is at least one
and at most the steps remaining, it is bounded by `decelerate_after` while
the latter is positive, and both counters are decremented by exactly the
emitted step count. -/
theorem prepStep_n_bounds (chunk : Nat) (p : PrepState) (hc : 1 ≤ chunk)
    (hr : 1 ≤ p.step_events_remaining) :
    1 ≤ (prepStep chunk p).1.n_step ∧
    (prepStep chunk p).1.n_step ≤ p.step_events_remaining ∧
    (0 < p.decelerate_after → (prepStep chunk p).1.n_step ≤ p.decelerate_after) ∧
    (prepStep chunk p).2.step_events_remaining =
      p.step_events_remaining - (prepStep chunk p).1.n_step ∧
    (prepStep chunk p).2.decelerate_after =
      p.decelerate_after - (prepStep chunk p).1.n_step := by
  simp only [prepStep]
  split_ifs <;> simp_all <;> omega

/-- A staged block with no steps remaining produces no further slices. -/
theorem prepRun_eq_nil {policy : Nat → Nat} {i fuel : Nat} {p : PrepState}
    (h : p.step_events_remaining ≤ 0) : prepRun policy i fuel p = [] := by
  cases fuel <;> simp [prepRun, h]

/-- Unfolding of one slicing iteration while steps remain. -/
theorem prepRun_eq_cons {policy : Nat → Nat} {i fuel : Nat} {p : PrepState}
    (h : 0 < p.step_events_remaining) :
    prepRun policy i (fuel + 1) p =
      prepStep (policy i) p :: prepRun policy (i + 1) fuel (prepStep (policy i) p).2 := by
  simp only [prepRun]
  rw [if_neg (by omega)]

/-- Unfolding of the state trace while steps remain. -/
theorem prepStates_cons {policy : Nat → Nat} {i fuel : Nat} {p : PrepState}
    (h : 0 < p.step_events_remaining) :
    prepStates policy i (fuel + 1) p =
      p :: prepStates policy (i + 1) fuel (prepStep (policy i) p).2 := by
  simp only [prepStates, prepRun_eq_cons h, List.map_cons]

/-- Both counters are non-increasing across successive slices and
`step_events_remaining` never goes negative, for every chunk-size policy
that always requests at least one step. -/
theorem prep_chain (policy : Nat → Nat) (hpol : ∀ j, 1 ≤ policy j) :
    ∀ (fuel i : Nat) (p : PrepState),
      (prepStates policy i fuel p).Chain'
        (fun a b => b.step_events_remaining ≤ a.step_events_remaining ∧
          b.decelerate_after ≤ a.decelerate_after ∧ 0 ≤ b.step_events_remaining)
  | 0, i, p => by simp [prepStates, prepRun]
  | fuel + 1, i, p => by
    by_cases h : p.step_events_remaining ≤ 0
    · simp [prepStates, prepRun, h]
    · rw [prepStates_cons (by omega)]
      have hb := prepStep_n_bounds (policy i) p (hpol i) (by omega)
      have htail := prep_chain policy hpol fuel (i + 1) (prepStep (policy i) p).2
      rw [prepStates] at htail ⊢
      exact List.chain'_cons.mpr ⟨⟨by omega, by omega, by omega⟩, htail⟩

/-- Given enough fuel, the slicing run drives `step_events_remaining` to
exactly zero. -/
theorem prep_complete (policy : Nat → Nat) (hpol : ∀ j, 1 ≤ policy j) :
    ∀ (fuel i : Nat) (p : PrepState), 1 ≤ p.step_events_remaining →
      p.step_events_remaining.toNat ≤ fuel →
      (((prepRun policy i fuel p).map (fun r => r.2)).getLastD p).step_events_remaining = 0
  | 0, _, p, hr, hf => by omega
  | fuel + 1, i, p, hr, hf => by
    have hb := prepStep_n_bounds (policy i) p (hpol i) hr
    rw [prepRun_eq_cons (by omega), List.map_cons, List.getLastD_cons]
    by_cases h0 : (prepStep (policy i) p).2.step_events_remaining ≤ 0
    · rw [prepRun_eq_nil h0]
      simpa using by omega
    · exact prep_complete policy hpol fuel (i + 1) (prepStep (policy i) p).2 (by omega) (by omega)

/-- When the deceleration point lies inside the block
(`0 ≤ decelerate_after ≤ step_events_remaining`), `decelerate_after`
attains the value zero at some point of the trace: the clamp of stepper.c
lines 583-587 prevents a slice from jumping over it while it is positive. -/
theorem prep_decel_attains_zero (policy : Nat → Nat) (hpol : ∀ j, 1 ≤ policy j) :
    ∀ (fuel i : Nat) (p : PrepState), 1 ≤ p.step_events_remaining →
      0 ≤ p.decelerate_after → p.decelerate_after ≤ p.step_events_remaining →
      p.step_events_remaining.toNat ≤ fuel →
      ∃ q ∈ prepStates policy i fuel p, q.decelerate_after = 0
  | 0, _, p, hr, _, _, hf => by omega
  | fuel + 1, i, p, hr, hd0, hdr, hf => by
    by_cases hz : p.decelerate_after = 0
    · exact ⟨p, by simp [prepStates], hz⟩
    · have hb := prepStep_n_bounds (policy i) p (hpol i) hr
      rw [prepStates_cons (by omega)]
      by_cases h0 : (prepStep (policy i) p).2.step_events_remaining ≤ 0
      · refine ⟨(prepStep (policy i) p).2, ?_, by omega⟩
        rw [prepStates]
        exact List.mem_cons_of_mem _ (List.mem_cons_self _ _)
      · obtain ⟨q, hq, hq0⟩ := prep_decel_attains_zero policy hpol fuel (i + 1)
          (prepStep (policy i) p).2 (by omega) (by omega) (by omega) (by omega)
        exact ⟨q, List.mem_cons_of_mem _ hq, hq0⟩

/-- C2 counterexample: with the source's own chunk size 250 and a block of
300 step events whose deceleration point is 50 steps in, the block is fully
consumed in two slices, and at block completion `decelerate_after` is −250:
it does not end at zero and it is negative, refuting the claim that it is
never negative and reaches exactly zero by block completion. -/
theorem prep_decel_negative_counterexample :
    (((prepRun (fun _ => 250) 0 300 (⟨300, 50⟩ : PrepState)).map
        (fun r : PrepSeg × PrepState => r.2)).getLastD (⟨300, 50⟩ : PrepState)).step_events_remaining
      = 0 ∧
    (((prepRun (fun _ => 250) 0 300 (⟨300, 50⟩ : PrepState)).map
        (fun r : PrepSeg × PrepState => r.2)).getLastD (⟨300, 50⟩ : PrepState)).decelerate_after
      = -250 := by
  decide

/-- C2 as amended: during the preparation of a single block, for every
chunk-size policy emitting at least one step per slice,
`step_events_remaining` and `decelerate_after` are monotonically
non-increasing across successive slices; `step_events_remaining` is never
negative and reaches exactly zero at block completion; and, provided the
deceleration point lies inside the block, `decelerate_after` attains
exactly zero at some slice boundary — but it then keeps being decremented
and becomes negative on any later slices, so it neither stays at zero nor
is it never negative (see the counterexample). -/
theorem prep_counters_monotone (policy : Nat → Nat) (fuel : Nat) (p : PrepState)
    (hpol : ∀ j, 1 ≤ policy j) (hr : 1 ≤ p.step_events_remaining)
    (hd0 : 0 ≤ p.decelerate_after) (hdr : p.decelerate_after ≤ p.step_events_remaining)
    (hfuel : p.step_events_remaining.toNat ≤ fuel) :
    (prepStates policy 0 fuel p).Chain'
      (fun a b => b.step_events_remaining ≤ a.step_events_remaining ∧
        b.decelerate_after ≤ a.decelerate_after ∧ 0 ≤ b.step_events_remaining) ∧
    (((prepRun policy 0 fuel p).map (fun r => r.2)).getLastD p).step_events_remaining = 0 ∧
    ∃ q ∈ prepStates policy 0 fuel p, q.decelerate_after = 0 :=
  ⟨prep_chain policy hpol fuel 0 p,
   prep_complete policy hpol fuel 0 p hr hfuel,
   prep_decel_attains_zero policy hpol fuel 0 p hr hd0 hdr hfuel⟩

/-- Witness for `prep_counters_monotone` on the concrete 300-step block
with deceleration point 50, sliced with the source's chunk size 250. -/
theorem prep_counters_monotone_witness :
    (prepStates (fun _ => 250) 0 300 (⟨300, 50⟩ : PrepState)).Chain'
      (fun a b => b.step_events_remaining ≤ a.step_events_remaining ∧
        b.decelerate_after ≤ a.decelerate_after ∧ 0 ≤ b.step_events_remaining) ∧
    (((prepRun (fun _ => 250) 0 300 (⟨300, 50⟩ : PrepState)).map
        (fun r : PrepSeg × PrepState => r.2)).getLastD (⟨300, 50⟩ : PrepState)).step_events_remaining
      = 0 ∧
    ∃ q ∈ prepStates (fun _ => 250) 0 300 (⟨300, 50⟩ : PrepState), q.decelerate_after = 0 :=
  prep_counters_monotone (fun _ => 250) 300 ⟨300, 50⟩ (fun _ => by norm_num)
    (by decide) (by decide) (by decide) (by decide)

/-- C8: when the tick handler needs to load a segment (`load_flag` not
NOOP) and the segment buffer is empty (`head = tail`), it idles the device
(st_go_idle: tick timer disabled, busy guard cleared), raises the
cycle-stop execute flag, and returns without doing anything else: the
Bresenham counters, the inverse-time state, the positions, the buffer
indices, the planner, `out_bits` and `load_flag` are all unchanged, and the
stepping port, pulse timer and `execute_step` are exactly as the initial
pulse phase (which precedes the empty-buffer check) left them. -/
theorem isr_empty_buffer_stalls (cfg : Cfg) (s : GState)
    (hb : s.busy = false) (hl : s.st.load_flag ≠ LOAD_NOOP)
    (he : s.segment_buffer_head = s.segment_buffer_tail) :
    (isr cfg s).timer2_interrupt = false ∧
    (isr cfg s).timer2_running = false ∧
    (isr cfg s).busy = false ∧
    (isr cfg s).sys_execute = s.sys_execute ||| EXEC_CYCLE_STOP ∧
    (isr cfg s).st.counter_x = s.st.counter_x ∧
    (isr cfg s).st.counter_y = s.st.counter_y ∧
    (isr cfg s).st.counter_z = s.st.counter_z ∧
    (isr cfg s).st.counter_d = s.st.counter_d ∧
    (isr cfg s).st.segment_steps_remaining = s.st.segment_steps_remaining ∧
    (isr cfg s).st.delta_d = s.st.delta_d ∧
    (isr cfg s).st.d_per_tick = s.st.d_per_tick ∧
    (isr cfg s).st.out_bits = s.st.out_bits ∧
    (isr cfg s).st.load_flag = s.st.load_flag ∧
    (isr cfg s).st.ramp_count = s.st.ramp_count ∧
    (isr cfg s).st.ramp_type = s.st.ramp_type ∧
    (isr cfg s).pos_x = s.pos_x ∧
    (isr cfg s).pos_y = s.pos_y ∧
    (isr cfg s).pos_z = s.pos_z ∧
    (isr cfg s).segment_buffer_tail = s.segment_buffer_tail ∧
    (isr cfg s).segment_buffer_head = s.segment_buffer_head ∧
    (isr cfg s).segment_next_head = s.segment_next_head ∧
    (isr cfg s).planner_discards = s.planner_discards ∧
    (isr cfg s).planner = s.planner ∧
    (isr cfg s).stepping_port = (pulsePhase s).stepping_port ∧
    (isr cfg s).st.execute_step = (pulsePhase s).st.execute_step ∧
    (isr cfg s).timer0_running = (pulsePhase s).timer0_running := by
  simp only [isr, pulsePhase, st_go_idle, hb, hl, he]
  split_ifs <;> simp_all

/-- Witness for `isr_empty_buffer_stalls` at a concrete empty-buffer state. -/
theorem isr_empty_buffer_stalls_witness :
    (isr exCfg exEmptyStall).timer2_interrupt = false ∧
    (isr exCfg exEmptyStall).timer2_running = false ∧
    (isr exCfg exEmptyStall).busy = false ∧
    (isr exCfg exEmptyStall).sys_execute = exEmptyStall.sys_execute ||| EXEC_CYCLE_STOP ∧
    (isr exCfg exEmptyStall).st.counter_x = exEmptyStall.st.counter_x ∧
    (isr exCfg exEmptyStall).st.counter_y = exEmptyStall.st.counter_y ∧
    (isr exCfg exEmptyStall).st.counter_z = exEmptyStall.st.counter_z ∧
    (isr exCfg exEmptyStall).st.counter_d = exEmptyStall.st.counter_d ∧
    (isr exCfg exEmptyStall).st.segment_steps_remaining =
      exEmptyStall.st.segment_steps_remaining ∧
    (isr exCfg exEmptyStall).st.delta_d = exEmptyStall.st.delta_d ∧
    (isr exCfg exEmptyStall).st.d_per_tick = exEmptyStall.st.d_per_tick ∧
    (isr exCfg exEmptyStall).st.out_bits = exEmptyStall.st.out_bits ∧
    (isr exCfg exEmptyStall).st.load_flag = exEmptyStall.st.load_flag ∧
    (isr exCfg exEmptyStall).st.ramp_count = exEmptyStall.st.ramp_count ∧
    (isr exCfg exEmptyStall).st.ramp_type = exEmptyStall.st.ramp_type ∧
    (isr exCfg exEmptyStall).pos_x = exEmptyStall.pos_x ∧
    (isr exCfg exEmptyStall).pos_y = exEmptyStall.pos_y ∧
    (isr exCfg exEmptyStall).pos_z = exEmptyStall.pos_z ∧
    (isr exCfg exEmptyStall).segment_buffer_tail = exEmptyStall.segment_buffer_tail ∧
    (isr exCfg exEmptyStall).segment_buffer_head = exEmptyStall.segment_buffer_head ∧
    (isr exCfg exEmptyStall).segment_next_head = exEmptyStall.segment_next_head ∧
    (isr exCfg exEmptyStall).planner_discards = exEmptyStall.planner_discards ∧
    (isr exCfg exEmptyStall).planner = exEmptyStall.planner ∧
    (isr exCfg exEmptyStall).stepping_port = (pulsePhase exEmptyStall).stepping_port ∧
    (isr exCfg exEmptyStall).st.execute_step = (pulsePhase exEmptyStall).st.execute_step ∧
    (isr exCfg exEmptyStall).timer0_running = (pulsePhase exEmptyStall).timer0_running :=
  isr_empty_buffer_stalls exCfg exEmptyStall rfl (by decide) rfl

/-- The pulse phase never touches the load flag. -/
theorem pulsePhase_load_flag (s : GState) : (pulsePhase s).st.load_flag = s.st.load_flag := by
  unfold pulsePhase; split <;> rfl

/-- The pulse phase never touches the ring head. -/
theorem pulsePhase_head (s : GState) :
    (pulsePhase s).segment_buffer_head = s.segment_buffer_head := by
  unfold pulsePhase; split <;> rfl

/-- The pulse phase never touches the ring tail. -/
theorem pulsePhase_tail (s : GState) :
    (pulsePhase s).segment_buffer_tail = s.segment_buffer_tail := by
  unfold pulsePhase; split <;> rfl

/-- The pulse phase never calls into the planner. -/
theorem pulsePhase_discards (s : GState) : (pulsePhase s).planner_discards = s.planner_discards := by
  unfold pulsePhase; split <;> rfl

/-- Loading a segment never calls into the planner's discard entry point. -/
theorem loadSegment_discards (cfg : Cfg) (s : GState) :
    (loadSegment cfg s).planner_discards = s.planner_discards := by
  simp only [loadSegment]
  split_ifs <;> rfl

/-- The ramp phase never calls into the planner. -/
theorem rampPhase_discards (cfg : Cfg) (s : GState) :
    (rampPhase cfg s).planner_discards = s.planner_discards := by
  simp only [rampPhase]
  split_ifs <;> rfl

/-- The only planner discard in the handler sits at the segment-completion
check: the integration phase discards exactly when the step event fires,
the decremented segment step count reaches zero, and the active segment is
flagged ST_END_OF_BLOCK or ST_DECEL_EOB. -/
theorem integrate_discards (s : GState) :
    (integratePhase s).planner_discards = s.planner_discards +
      (if s.st.counter_d - (s.st.d_per_tick : Int) < 0 ∧
          (s.st.segment_steps_remaining + 255) % 256 = 0 ∧
          (s.st_current_segment.flag = ST_END_OF_BLOCK ∨
           s.st_current_segment.flag = ST_DECEL_EOB)
       then 1 else 0) := by
  simp only [integratePhase]
  split_ifs <;> simp_all

/-- On the non-returning paths, the handler is the pulse phase followed by
the load phase (if pending), the ramp phase, the integration phase, and the
release of the busy guard. -/
theorem isr_eq_finish (cfg : Cfg) (s : GState) (hb : s.busy = false)
    (hns : ¬(s.st.load_flag ≠ LOAD_NOOP ∧ s.segment_buffer_head = s.segment_buffer_tail)) :
    isr cfg s = { integratePhase (preStepState cfg s) with busy := false } := by
  by_cases hl : s.st.load_flag ≠ LOAD_NOOP
  · have he : s.segment_buffer_head ≠ s.segment_buffer_tail := fun hc => hns ⟨hl, hc⟩
    simp [isr, finishTick, preStepState, hb, hl, he,
      pulsePhase_load_flag, pulsePhase_head, pulsePhase_tail]
  · simp [isr, finishTick, preStepState, hb, hl, pulsePhase_load_flag]

/-- Per-tick discard accounting: the handler bumps the planner-discard
count by one exactly when `discardTrigger` holds and leaves it unchanged
otherwise. -/
theorem isr_discards_eq (cfg : Cfg) (s : GState) :
    (isr cfg s).planner_discards =
      s.planner_discards + (if discardTrigger cfg s = true then 1 else 0) := by
  cases hbv : s.busy
  · by_cases hstall : s.st.load_flag ≠ LOAD_NOOP ∧ s.segment_buffer_head = s.segment_buffer_tail
    · obtain ⟨hl, he⟩ := hstall
      have ht : discardTrigger cfg s = false := by
        simp [discardTrigger, hl, he]
      rw [ht]
      simp only [isr, hbv, st_go_idle]
      simp only [pulsePhase_load_flag, pulsePhase_head, pulsePhase_tail]
      simp [hl, he]
      split_ifs <;> simp [pulsePhase_discards]
    · rw [isr_eq_finish cfg s hbv hstall]
      have hstb : (decide (s.st.load_flag ≠ LOAD_NOOP) &&
          (s.segment_buffer_head == s.segment_buffer_tail)) = false := by
        rcases not_and_or.mp hstall with h | h
        · have hfl : s.st.load_flag = LOAD_NOOP := by tauto
          simp [hfl]
        · simp [h]
      have hdis : (preStepState cfg s).planner_discards = s.planner_discards := by
        simp only [preStepState, rampPhase_discards]
        split_ifs <;> simp [loadSegment_discards, pulsePhase_discards]
      show (integratePhase (preStepState cfg s)).planner_discards = _
      rw [integrate_discards, hdis]
      have htr : discardTrigger cfg s =
          (decide ((preStepState cfg s).st.counter_d -
              ((preStepState cfg s).st.d_per_tick : Int) < 0) &&
           (((preStepState cfg s).st.segment_steps_remaining + 255) % 256 == 0) &&
           segFlagEOB (preStepState cfg s).st_current_segment.flag) := by
        unfold discardTrigger
        rw [hbv, hstb]
        simp
      rw [htr]
      have hiff : ((decide ((preStepState cfg s).st.counter_d -
              ((preStepState cfg s).st.d_per_tick : Int) < 0) &&
           (((preStepState cfg s).st.segment_steps_remaining + 255) % 256 == 0) &&
           segFlagEOB (preStepState cfg s).st_current_segment.flag) = true) ↔
          ((preStepState cfg s).st.counter_d - ((preStepState cfg s).st.d_per_tick : Int) < 0 ∧
           ((preStepState cfg s).st.segment_steps_remaining + 255) % 256 = 0 ∧
           ((preStepState cfg s).st_current_segment.flag = ST_END_OF_BLOCK ∨
            (preStepState cfg s).st_current_segment.flag = ST_DECEL_EOB)) := by
        simp [segFlagEOB, Bool.and_eq_true, Bool.or_eq_true, decide_eq_true_eq,
          beq_iff_eq, and_assoc]
      rw [if_congr hiff rfl rfl]
  · have ht : discardTrigger cfg s = false := by simp [discardTrigger, hbv]
    simp [isr, hbv, ht]

/-- A slice is flagged ST_END_OF_BLOCK or ST_DECEL_EOB exactly when it
brings `step_events_remaining` to zero. -/
theorem prepStep_eob_iff (chunk : Nat) (p : PrepState) :
    segFlagEOB (prepStep chunk p).1.flag = true ↔
      (prepStep chunk p).2.step_events_remaining = 0 := by
  simp only [prepStep, segFlagEOB, ST_END_OF_BLOCK, ST_DECEL_EOB, ST_DECEL, ST_NOOP]
  split_ifs <;> simp_all

/-- Each fully sliced block carries exactly one end-of-block flagged
segment, and it is the last one. -/
theorem prep_one_eob (policy : Nat → Nat) (hpol : ∀ j, 1 ≤ policy j) :
    ∀ (fuel i : Nat) (p : PrepState) (d : PrepSeg), 1 ≤ p.step_events_remaining →
      p.step_events_remaining.toNat ≤ fuel →
      ((prepRun policy i fuel p).map (fun r : PrepSeg × PrepState => r.1)).countP
        (fun sg => segFlagEOB sg.flag) = 1 ∧
      segFlagEOB (((prepRun policy i fuel p).map
        (fun r : PrepSeg × PrepState => r.1)).getLastD d).flag = true
  | 0, _, p, _, hr, hf => by omega
  | fuel + 1, i, p, d, hr, hf => by
    have hb := prepStep_n_bounds (policy i) p (hpol i) hr
    rw [prepRun_eq_cons (by omega), List.map_cons, List.getLastD_cons, List.countP_cons]
    by_cases h0 : (prepStep (policy i) p).2.step_events_remaining ≤ 0
    · have heob := (prepStep_eob_iff (policy i) p).mpr (by omega)
      rw [prepRun_eq_nil h0]
      simp [heob]
    · have heob : segFlagEOB (prepStep (policy i) p).1.flag = false := by
        cases hsb : segFlagEOB (prepStep (policy i) p).1.flag
        · rfl
        · have := (prepStep_eob_iff (policy i) p).mp hsb
          omega
      obtain ⟨ih1, ih2⟩ := prep_one_eob policy hpol fuel (i + 1) (prepStep (policy i) p).2
        (prepStep (policy i) p).1 (by omega) (by omega)
      constructor
      · simp [heob, ih1]
      · exact ih2

/-- C9: the tick interrupt calls `plan_discard_current_block` exactly on
the tick whose step event finishes the last step of a segment flagged
ST_END_OF_BLOCK or ST_DECEL_EOB (the `discardTrigger` condition); segments
flagged Continue or Decel never trigger a discard; and the slicing of any
one block emits exactly one segment flagged ST_END_OF_BLOCK or
ST_DECEL_EOB, namely the last — so exactly one discard occurs per fully
consumed block. -/
theorem discard_once_per_block (cfg : Cfg) :
    (∀ s : GState, discardTrigger cfg s = true →
      (isr cfg s).planner_discards = s.planner_discards + 1) ∧
    (∀ s : GState, discardTrigger cfg s = false →
      (isr cfg s).planner_discards = s.planner_discards) ∧
    (∀ (policy : Nat → Nat) (fuel : Nat) (p : PrepState) (d : PrepSeg),
      (∀ j, 1 ≤ policy j) → 1 ≤ p.step_events_remaining →
      p.step_events_remaining.toNat ≤ fuel →
      ((prepRun policy 0 fuel p).map (fun r : PrepSeg × PrepState => r.1)).countP
        (fun sg => segFlagEOB sg.flag) = 1 ∧
      segFlagEOB (((prepRun policy 0 fuel p).map
        (fun r : PrepSeg × PrepState => r.1)).getLastD d).flag = true) := by
  refine ⟨fun s ht => ?_, fun s ht => ?_, fun policy fuel p d hpol hr hf =>
    prep_one_eob policy hpol fuel 0 p d hr hf⟩
  · rw [isr_discards_eq cfg s, ht]; rfl
  · rw [isr_discards_eq cfg s, ht]; rfl

/-- Witness for `discard_once_per_block`: a discarding tick, a busy no-op
tick, and the two-slice block of the C2 scenario with its single
end-of-block segment. -/
theorem discard_once_per_block_witness :
    (isr exCfg exDiscard).planner_discards = exDiscard.planner_discards + 1 ∧
    (isr exCfg exBusy).planner_discards = exBusy.planner_discards ∧
    (((prepRun (fun _ => 250) 0 300 (⟨300, 50⟩ : PrepState)).map
        (fun r : PrepSeg × PrepState => r.1)).countP (fun sg => segFlagEOB sg.flag) = 1 ∧
      segFlagEOB (((prepRun (fun _ => 250) 0 300 (⟨300, 50⟩ : PrepState)).map
        (fun r : PrepSeg × PrepState => r.1)).getLastD default).flag = true) :=
  ⟨(discard_once_per_block exCfg).1 exDiscard (by decide),
   (discard_once_per_block exCfg).2.1 exBusy (by decide),
   (discard_once_per_block exCfg).2.2 (fun _ => 250) 300 ⟨300, 50⟩ default
     (fun _ => by norm_num) (by decide) (by decide)⟩

/-- Testing a single-bit mask is testing that bit. -/
theorem and_one_shift_ne (x j : Nat) : x &&& (1 <<< j) ≠ 0 ↔ x.testBit j := by
  rw [Nat.one_shiftLeft, Nat.and_two_pow]
  cases h : x.testBit j <;> simp [h]

/-- Setting one bit does not disturb the test of a different bit. -/
theorem or_one_shift_and_ne (x : Nat) {i j : Nat} (h : i ≠ j) :
    (x ||| (1 <<< i)) &&& (1 <<< j) ≠ 0 ↔ x &&& (1 <<< j) ≠ 0 := by
  rw [and_one_shift_ne, and_one_shift_ne, Nat.testBit_or, Nat.one_shiftLeft,
    Nat.testBit_two_pow_of_ne h, Bool.or_false]

/-- The x components of a full step event follow the pure single-axis event
with the direction sign fixed by the block's x direction bit: the step bits
set during the event live at positions distinct from every direction bit,
so they never disturb the position update's direction test. -/
theorem bresEvent_projX (b : PlanBlock) (q : BresCore) :
    projX (bresEvent b q) =
      axisEvent b.steps_x b.step_event_count (b.direction_bits.testBit X_DIRECTION_BIT)
        (projX q) := by
  simp only [bresEvent, bresStep, bresAxis, projX, axisEvent]
  split_ifs with h1 h2 h2 <;>
    simp_all [or_one_shift_and_ne _ (show X_STEP_BIT ≠ X_DIRECTION_BIT by decide),
      and_one_shift_ne]

/-- The y components of a full step event follow the pure single-axis
event. -/
theorem bresEvent_projY (b : PlanBlock) (q : BresCore) :
    projY (bresEvent b q) =
      axisEvent b.steps_y b.step_event_count (b.direction_bits.testBit Y_DIRECTION_BIT)
        (projY q) := by
  simp only [bresEvent, bresStep, bresAxis, projY, axisEvent]
  split_ifs <;>
    simp_all [or_one_shift_and_ne _ (show X_STEP_BIT ≠ Y_DIRECTION_BIT by decide),
      or_one_shift_and_ne _ (show Y_STEP_BIT ≠ Y_DIRECTION_BIT by decide),
      and_one_shift_ne]

/-- The z components of a full step event follow the pure single-axis
event. -/
theorem bresEvent_projZ (b : PlanBlock) (q : BresCore) :
    projZ (bresEvent b q) =
      axisEvent b.steps_z b.step_event_count (b.direction_bits.testBit Z_DIRECTION_BIT)
        (projZ q) := by
  simp only [bresEvent, bresStep, bresAxis, projZ, axisEvent]
  split_ifs <;>
    simp_all [or_one_shift_and_ne _ (show X_STEP_BIT ≠ Z_DIRECTION_BIT by decide),
      or_one_shift_and_ne _ (show Y_STEP_BIT ≠ Z_DIRECTION_BIT by decide),
      or_one_shift_and_ne _ (show Z_STEP_BIT ≠ Z_DIRECTION_BIT by decide),
      and_one_shift_ne]

/-- Bresenham axis invariant: starting inside `[0, count)` with a step
count at most `count`, the error counter stays inside `[0, count)` and
satisfies `c = c0 - k * steps + pulses * count` after `k` events, while the
position moves by one per pulse in the fixed direction. -/
theorem axisEvent_invariant (steps count : Nat) (neg : Bool) (c0 pos0 : Int)
    (hs : steps ≤ count) (h0 : 0 ≤ c0) (h1 : c0 < count) :
    ∀ k : Nat,
      0 ≤ ((axisEvent steps count neg)^[k] ⟨c0, pos0, 0⟩).c ∧
      ((axisEvent steps count neg)^[k] ⟨c0, pos0, 0⟩).c < count ∧
      ((axisEvent steps count neg)^[k] ⟨c0, pos0, 0⟩).c =
        c0 - (k : Int) * (steps : Int) +
          (((axisEvent steps count neg)^[k] ⟨c0, pos0, 0⟩).pul : Int) * (count : Int) ∧
      ((axisEvent steps count neg)^[k] ⟨c0, pos0, 0⟩).pos =
        pos0 + (if neg then -(((axisEvent steps count neg)^[k] ⟨c0, pos0, 0⟩).pul : Int)
                else (((axisEvent steps count neg)^[k] ⟨c0, pos0, 0⟩).pul : Int))
  | 0 => by cases neg <;> simp [h0, h1]
  | k + 1 => by
    obtain ⟨ih0, ih1, ih2, ih3⟩ := axisEvent_invariant steps count neg c0 pos0 hs h0 h1 k
    rw [Function.iterate_succ_apply']
    set A := (axisEvent steps count neg)^[k] (⟨c0, pos0, 0⟩ : AxisState) with hA
    clear_value A
    by_cases hc : A.c - (steps : Int) < 0
    · have hstep : axisEvent steps count neg A =
          ⟨A.c - (steps : Int) + (count : Int),
           if neg then A.pos - 1 else A.pos + 1, A.pul + 1⟩ := by
        simp only [axisEvent]
        rw [if_pos hc]
      rw [hstep]
      refine ⟨?_, ?_, ?_, ?_⟩
      · show 0 ≤ A.c - (steps : Int) + (count : Int)
        omega
      · show A.c - (steps : Int) + (count : Int) < (count : Int)
        omega
      · show A.c - (steps : Int) + (count : Int) =
          c0 - ((k + 1 : Nat) : Int) * (steps : Int) + ((A.pul + 1 : Nat) : Int) * (count : Int)
        push_cast
        ring_nf
        ring_nf at ih2
        linarith
      · show (if neg then A.pos - 1 else A.pos + 1) =
          pos0 + (if neg then -((A.pul + 1 : Nat) : Int) else ((A.pul + 1 : Nat) : Int))
        cases neg
        · simp only [Bool.false_eq_true, if_false]
          simp only [Bool.false_eq_true, if_false] at ih3
          push_cast
          omega
        · simp only [eq_self_iff_true, if_true]
          simp only [eq_self_iff_true, if_true] at ih3
          push_cast
          omega
    · have hstep : axisEvent steps count neg A = ⟨A.c - (steps : Int), A.pos, A.pul⟩ := by
        simp only [axisEvent]
        rw [if_neg hc]
      rw [hstep]
      refine ⟨?_, ?_, ?_, ?_⟩
      · show 0 ≤ A.c - (steps : Int)
        omega
      · show A.c - (steps : Int) < (count : Int)
        omega
      · show A.c - (steps : Int) =
          c0 - ((k + 1 : Nat) : Int) * (steps : Int) + ((A.pul : Nat) : Int) * (count : Int)
        push_cast
        ring_nf
        ring_nf at ih2
        linarith
      · exact ih3

/-- Executing exactly `count` Bresenham events emits exactly `steps` pulses
on an axis commanding `steps` of `count` step events, moving the position
by exactly `steps` in the commanded direction. -/
theorem axisEvent_count_exact (steps count : Nat) (neg : Bool) (c0 pos0 : Int)
    (hs : steps ≤ count) (hN : 1 ≤ count) (h0 : 0 ≤ c0) (h1 : c0 < count) :
    ((axisEvent steps count neg)^[count] ⟨c0, pos0, 0⟩).pul = steps ∧
    ((axisEvent steps count neg)^[count] ⟨c0, pos0, 0⟩).pos =
      pos0 + (if neg then -(steps : Int) else (steps : Int)) := by
  obtain ⟨hb0, hb1, heq, hpos⟩ := axisEvent_invariant steps count neg c0 pos0 hs h0 h1 count
  set A := (axisEvent steps count neg)^[count] (⟨c0, pos0, 0⟩ : AxisState) with hA
  have hcount : (0 : Int) < (count : Int) := by exact_mod_cast hN
  have hlt : ((A.pul : Int) - (steps : Int)) * (count : Int) < 1 * (count : Int) := by
    rw [sub_mul, one_mul]
    nlinarith [heq, hb1, h0]
  have hgt : (-1 : Int) * (count : Int) < ((A.pul : Int) - (steps : Int)) * (count : Int) := by
    rw [sub_mul, neg_one_mul]
    nlinarith [heq, hb0, h1]
  have hlt2 := (mul_lt_mul_right hcount).mp hlt
  have hgt2 := (mul_lt_mul_right hcount).mp hgt
  have hpul : A.pul = steps := by omega
  exact ⟨hpul, by rw [hpos, hpul]⟩

/-- The per-axis projections of iterated step events are the iterated pure
single-axis events. -/
theorem bresEvent_iter_proj (b : PlanBlock) (q : BresCore) :
    ∀ k : Nat,
      projX ((bresEvent b)^[k] q) =
        (axisEvent b.steps_x b.step_event_count
          (b.direction_bits.testBit X_DIRECTION_BIT))^[k] (projX q) ∧
      projY ((bresEvent b)^[k] q) =
        (axisEvent b.steps_y b.step_event_count
          (b.direction_bits.testBit Y_DIRECTION_BIT))^[k] (projY q) ∧
      projZ ((bresEvent b)^[k] q) =
        (axisEvent b.steps_z b.step_event_count
          (b.direction_bits.testBit Z_DIRECTION_BIT))^[k] (projZ q)
  | 0 => by simp
  | k + 1 => by
    obtain ⟨ihx, ihy, ihz⟩ := bresEvent_iter_proj b q k
    refine ⟨?_, ?_, ?_⟩ <;>
      rw [Function.iterate_succ_apply', Function.iterate_succ_apply']
    · rw [bresEvent_projX, ihx]
    · rw [bresEvent_projY, ihy]
    · rw [bresEvent_projZ, ihz]

/-- A run of ticks applies the step event as many times as it fires,
regardless of the per-tick rates. -/
theorem invTimeRun_core (b : PlanBlock) (dnext : Nat) :
    ∀ (rates : List Nat) (t : InvTimeState),
      (invTimeRun b dnext rates t).core =
        (bresEvent b)^[(invTimeRun b dnext rates t).events - t.events] t.core ∧
      t.events ≤ (invTimeRun b dnext rates t).events
  | [], t => by simp [invTimeRun]
  | r :: rates, t => by
    obtain ⟨ih1, ih2⟩ := invTimeRun_core b dnext rates (invTimeTick b dnext r t)
    have hrun : invTimeRun b dnext (r :: rates) t =
        invTimeRun b dnext rates (invTimeTick b dnext r t) := by
      simp [invTimeRun]
    rw [hrun]
    simp only [invTimeTick] at ih1 ih2 ⊢
    split_ifs at ih1 ih2 ⊢ with hc
    · dsimp only at ih1 ih2 ⊢
      refine ⟨?_, by omega⟩
      rw [ih1]
      have hk : (invTimeRun b dnext rates
            (⟨t.counter_d - (r : Int) + (dnext : Int), bresEvent b t.core,
              t.events + 1⟩ : InvTimeState)).events - t.events =
          ((invTimeRun b dnext rates
            (⟨t.counter_d - (r : Int) + (dnext : Int), bresEvent b t.core,
              t.events + 1⟩ : InvTimeState)).events - (t.events + 1)) + 1 := by
        omega
      rw [hk, Function.iterate_succ_apply]
    · exact ⟨ih1, ih2⟩

/-- C1: for every planner block that is fully consumed by the stepper
interrupt — its full count of step events fired, over an arbitrary list of
per-tick rates, hence regardless of how many ramp-rate adjustments occurred
— and for every axis, the number of step pulses emitted on that axis equals
the block's commanded per-axis step count exactly, and the signed position
counter of that axis changes by exactly that count in the direction given
by the block's direction bit. -/
theorem block_step_totals (b : PlanBlock) (dnext : Nat) (rates : List Nat) (cd0 : Int)
    (ob0 : Nat) (px py pz : Int)
    (hx : b.steps_x ≤ b.step_event_count)
    (hy : b.steps_y ≤ b.step_event_count)
    (hz : b.steps_z ≤ b.step_event_count)
    (hN : 1 ≤ b.step_event_count)
    (hev : (blockRun b dnext rates cd0 ob0 px py pz).events = b.step_event_count) :
    (blockRun b dnext rates cd0 ob0 px py pz).core.pulses_x = b.steps_x ∧
    (blockRun b dnext rates cd0 ob0 px py pz).core.pulses_y = b.steps_y ∧
    (blockRun b dnext rates cd0 ob0 px py pz).core.pulses_z = b.steps_z ∧
    (blockRun b dnext rates cd0 ob0 px py pz).core.pos_x =
      px + (if b.direction_bits.testBit X_DIRECTION_BIT then -(b.steps_x : Int)
            else (b.steps_x : Int)) ∧
    (blockRun b dnext rates cd0 ob0 px py pz).core.pos_y =
      py + (if b.direction_bits.testBit Y_DIRECTION_BIT then -(b.steps_y : Int)
            else (b.steps_y : Int)) ∧
    (blockRun b dnext rates cd0 ob0 px py pz).core.pos_z =
      pz + (if b.direction_bits.testBit Z_DIRECTION_BIT then -(b.steps_z : Int)
            else (b.steps_z : Int)) := by
  have hcore : (blockRun b dnext rates cd0 ob0 px py pz).core =
      (bresEvent b)^[b.step_event_count] (blockInitCore b ob0 px py pz) := by
    have h1 := (invTimeRun_core b dnext rates ⟨cd0, blockInitCore b ob0 px py pz, 0⟩).1
    simp only [blockRun] at hev ⊢
    simp only at h1
    rw [h1, Nat.sub_zero, hev]
  have hproj := bresEvent_iter_proj b (blockInitCore b ob0 px py pz) b.step_event_count
  have hc0a : (0 : Int) ≤ ((b.step_event_count >>> 1 : Nat) : Int) := Int.ofNat_nonneg _
  have hc0b : ((b.step_event_count >>> 1 : Nat) : Int) < (b.step_event_count : Int) := by
    have : b.step_event_count >>> 1 < b.step_event_count := by
      rw [Nat.shiftRight_eq_div_pow, pow_one]
      exact Nat.div_lt_self (by omega) (by norm_num)
    exact_mod_cast this
  have hX := hproj.1
  have hY := hproj.2.1
  have hZ := hproj.2.2
  rw [show projX (blockInitCore b ob0 px py pz) =
    (⟨((b.step_event_count >>> 1 : Nat) : Int), px, 0⟩ : AxisState) from rfl] at hX
  rw [show projY (blockInitCore b ob0 px py pz) =
    (⟨((b.step_event_count >>> 1 : Nat) : Int), py, 0⟩ : AxisState) from rfl] at hY
  rw [show projZ (blockInitCore b ob0 px py pz) =
    (⟨((b.step_event_count >>> 1 : Nat) : Int), pz, 0⟩ : AxisState) from rfl] at hZ
  obtain ⟨hpx, hposx⟩ := axisEvent_count_exact b.steps_x b.step_event_count
    (b.direction_bits.testBit X_DIRECTION_BIT) ((b.step_event_count >>> 1 : Nat) : Int) px
    hx hN hc0a hc0b
  obtain ⟨hpy, hposy⟩ := axisEvent_count_exact b.steps_y b.step_event_count
    (b.direction_bits.testBit Y_DIRECTION_BIT) ((b.step_event_count >>> 1 : Nat) : Int) py
    hy hN hc0a hc0b
  obtain ⟨hpz, hposz⟩ := axisEvent_count_exact b.steps_z b.step_event_count
    (b.direction_bits.testBit Z_DIRECTION_BIT) ((b.step_event_count >>> 1 : Nat) : Int) pz
    hz hN hc0a hc0b
  refine ⟨?_, ?_, ?_, ?_, ?_, ?_⟩ <;> rw [hcore]
  · exact (congrArg AxisState.pul hX).trans hpx
  · exact (congrArg AxisState.pul hY).trans hpy
  · exact (congrArg AxisState.pul hZ).trans hpz
  · exact (congrArg AxisState.pos hX).trans hposx
  · exact (congrArg AxisState.pos hY).trans hposy
  · exact (congrArg AxisState.pos hZ).trans hposz

/-- Witness for `block_step_totals`: the two-event block `exBlock` run over
two ticks whose rates force one step event each. -/
theorem block_step_totals_witness :
    (blockRun exBlock 5 [7, 7] 0 0 10 20 30).core.pulses_x = exBlock.steps_x ∧
    (blockRun exBlock 5 [7, 7] 0 0 10 20 30).core.pulses_y = exBlock.steps_y ∧
    (blockRun exBlock 5 [7, 7] 0 0 10 20 30).core.pulses_z = exBlock.steps_z ∧
    (blockRun exBlock 5 [7, 7] 0 0 10 20 30).core.pos_x =
      10 + (if exBlock.direction_bits.testBit X_DIRECTION_BIT then -(exBlock.steps_x : Int)
            else (exBlock.steps_x : Int)) ∧
    (blockRun exBlock 5 [7, 7] 0 0 10 20 30).core.pos_y =
      20 + (if exBlock.direction_bits.testBit Y_DIRECTION_BIT then -(exBlock.steps_y : Int)
            else (exBlock.steps_y : Int)) ∧
    (blockRun exBlock 5 [7, 7] 0 0 10 20 30).core.pos_z =
      30 + (if exBlock.direction_bits.testBit Z_DIRECTION_BIT then -(exBlock.steps_z : Int)
            else (exBlock.steps_z : Int)) :=
  block_step_totals exBlock 5 [7, 7] 0 0 10 20 30 (by decide) (by decide) (by decide)
    (by decide) (by decide)

end Grbl
